import Mathlib

/-!
Verification of the GeoSearch API query/cache coordination layer.

The definitions below are a shallow embedding of the Python sources:
`app/cache.py` (key derivation, Redis-backed result cache),
`app/services.py` (POIService orchestration, geohash pre-filter) and
`app/queries.py` (the SQL executed against the PostGIS store).
Machine floats of the source are modelled as exact rationals, Python
dicts as association lists, and the Redis / PostgreSQL backends as
explicit state threaded through each operation.
-/

namespace GeoSearch

/-! ## JSON payload values

Cache-key payloads in `app/services.py` are Python dicts whose values are
floats (rounded coordinates), ints, strings or None.  `JVal` covers exactly
those shapes; an object payload is an association list of field name to
value. -/

/-- A JSON scalar value as used in cache-key payloads (`cache_payload` dicts
in `app/services.py`): None, an int, a (rounded) float modelled as a
rational, or a string. -/
inductive JVal where
  | jnull : JVal
  | jint : Int → JVal
  | jrat : Rat → JVal
  | jstr : String → JVal
deriving DecidableEq, Repr

/-- A cache-key payload: the field-name / value pairs of the Python dict, in
insertion order. -/
abbrev Payload := List (String × JVal)

/-- Rendering of a single payload value, mirroring `orjson.dumps` on the
scalars that occur in payloads (string escaping is not modelled; the
service's field values are numerals, short identifiers or None). -/
def renderJVal : JVal → String
  | JVal.jnull => "null"
  | JVal.jint n => toString n
  | JVal.jrat q => toString q
  | JVal.jstr s => "\"" ++ s ++ "\""

/-- Boolean key order used to sort payload fields: byte order on the field
names, as `orjson.OPT_SORT_KEYS` sorts object keys. -/
def keyLe (a b : String × JVal) : Bool := decide (a.1 ≤ b.1)

/-- Canonical form of a payload: fields sorted by name, which is what
`orjson.dumps(payload, option=orjson.OPT_SORT_KEYS)` serializes
(`app/cache.py` line 30). -/
def sortPayload (p : Payload) : Payload := p.mergeSort keyLe

/-- Rendering of the sorted field list as a JSON object body. -/
def renderFields : Payload → String
  | [] => ""
  | [(k, v)] => "\"" ++ k ++ "\":" ++ renderJVal v
  | (k, v) :: rest => "\"" ++ k ++ "\":" ++ renderJVal v ++ "," ++ renderFields rest

/-- Canonical serialization of a payload: `orjson.dumps` with
`OPT_SORT_KEYS` (`app/cache.py` line 30). -/
def canonicalJson (p : Payload) : String :=
  "\x7b" ++ renderFields (sortPayload p) ++ "\x7d"

/-! ## SHA-256

`_stable_key` digests the canonical serialization with
`hashlib.sha256(raw).hexdigest()[:24]` (`app/cache.py` line 31).  The hash
is implemented here over byte lists with `Nat` arithmetic taken modulo
`2 ^ 32`. -/

/-- Truncation to a 32-bit word. -/
def w32 (n : Nat) : Nat := n % 4294967296

/-- Right rotation of a 32-bit word by `n` bits. -/
def rotr (n x : Nat) : Nat := w32 ((x <<< (32 - n)) ||| (x >>> n))

/-- Bitwise complement of a 32-bit word. -/
def wnot (x : Nat) : Nat := w32 (x ^^^ 4294967295)

/-- The SHA-256 round constants (fractional parts of the cube roots of the
first 64 primes). -/
def kConst : List Nat :=
  [1116352408, 1899447441, 3049323471, 3921009573, 961987163, 1508970993,
   2453635748, 2870763221, 3624381080, 310598401, 607225278, 1426881987,
   1925078388, 2162078206, 2614888103, 3248222580, 3835390401, 4022224774,
   264347078, 604807628, 770255983, 1249150122, 1555081692, 1996064986,
   2554220882, 2821834349, 2952996808, 3210313671, 3336571891, 3584528711,
   113926993, 338241895, 666307205, 773529912, 1294757372, 1396182291,
   1695183700, 1986661051, 2177026350, 2456956037, 2730485921, 2820302411,
   3259730800, 3345764771, 3516065817, 3600352804, 4094571909, 275423344,
   430227734, 506948616, 659060556, 883997877, 958139571, 1322822218,
   1537002063, 1747873779, 1955562222, 2024104815, 2227730452, 2361852424,
   2428436474, 2756734187, 3204031479, 3329325298]

/-- The SHA-256 working state: eight 32-bit words. -/
structure Hash8 where
  a : Nat
  b : Nat
  c : Nat
  d : Nat
  e : Nat
  f : Nat
  g : Nat
  h : Nat
deriving Repr, DecidableEq

/-- The SHA-256 initial hash value. -/
def initH : Hash8 :=
  ⟨1779033703, 3144134277, 1013904242, 2773480762,
   1359893119, 2600822924, 528734635, 1541459225⟩

/-- SHA-256 message padding: append `0x80`, zero bytes up to 56 mod 64, and
the 64-bit big-endian bit length. -/
def sha256pad (msg : List Nat) : List Nat :=
  let len := msg.length
  let bitLen := 8 * len
  let zeros := (119 - len % 64) % 64
  msg ++ [128] ++ List.replicate zeros 0 ++
    [bitLen >>> 56 % 256, bitLen >>> 48 % 256, bitLen >>> 40 % 256,
     bitLen >>> 32 % 256, bitLen >>> 24 % 256, bitLen >>> 16 % 256,
     bitLen >>> 8 % 256, bitLen % 256]

/-- Grouping of a padded byte list into big-endian 32-bit words. -/
def bytesToWords : List Nat → List Nat
  | a :: b :: c :: d :: rest => (a * 16777216 + b * 65536 + c * 256 + d) :: bytesToWords rest
  | _ => []

/-- One extension step of the SHA-256 message schedule. -/
def nextWord (ws : List Nat) : Nat :=
  let n := ws.length
  let w15 := ws.getD (n - 15) 0
  let w2 := ws.getD (n - 2) 0
  let s0 := rotr 7 w15 ^^^ rotr 18 w15 ^^^ (w15 >>> 3)
  let s1 := rotr 17 w2 ^^^ rotr 19 w2 ^^^ (w2 >>> 10)
  w32 (ws.getD (n - 16) 0 + s0 + ws.getD (n - 7) 0 + s1)

/-- Extension of the 16 block words to the 64 schedule words. -/
def extendSchedule (ws : List Nat) : Nat → List Nat
  | 0 => ws
  | n + 1 => extendSchedule (ws ++ [nextWord ws]) n

/-- One SHA-256 compression round. -/
def roundStep (st : Hash8) (kw : Nat × Nat) : Hash8 :=
  let s1 := rotr 6 st.e ^^^ rotr 11 st.e ^^^ rotr 25 st.e
  let ch := (st.e &&& st.f) ^^^ (wnot st.e &&& st.g)
  let temp1 := w32 (st.h + s1 + ch + kw.1 + kw.2)
  let s0 := rotr 2 st.a ^^^ rotr 13 st.a ^^^ rotr 22 st.a
  let maj := (st.a &&& st.b) ^^^ (st.a &&& st.c) ^^^ (st.b &&& st.c)
  let temp2 := w32 (s0 + maj)
  ⟨w32 (temp1 + temp2), st.a, st.b, st.c, w32 (st.d + temp1), st.e, st.f, st.g⟩

/-- Compression of a single 64-byte block into the running hash. -/
def compressBlock (hs : Hash8) (block : List Nat) : Hash8 :=
  let ws := extendSchedule (bytesToWords block) 48
  let st := (kConst.zip ws).foldl roundStep hs
  ⟨w32 (hs.a + st.a), w32 (hs.b + st.b), w32 (hs.c + st.c), w32 (hs.d + st.d),
   w32 (hs.e + st.e), w32 (hs.f + st.f), w32 (hs.g + st.g), w32 (hs.h + st.h)⟩

set_option linter.unusedVariables false in
/-- Splitting of the padded message into 64-byte blocks. -/
def chunks64 (l : List Nat) : List (List Nat) :=
  if h : l = [] then [] else
    l.take 64 :: chunks64 (l.drop 64)
termination_by l.length
decreasing_by
  simp only [List.length_drop]
  exact Nat.sub_lt (List.length_pos.mpr h) (by omega)

/-- The SHA-256 hash of a byte list, as eight 32-bit words. -/
def sha256Words (msg : List Nat) : Hash8 :=
  (chunks64 (sha256pad msg)).foldl compressBlock initH

/-- The sixteen lowercase hexadecimal digit characters. -/
def hexDigits : List Char := "0123456789abcdef".data

/-- The lowercase hex character for a nibble. -/
def hexChar (n : Nat) : Char := hexDigits.getD (n % 16) '0'

/-- The eight lowercase hex characters of a 32-bit word, most significant
nibble first. -/
def word8Hex (w : Nat) : List Char :=
  (List.range 8).map fun i => hexChar (w >>> (28 - 4 * i))

/-- The 64 hex characters of `hashlib.sha256(...).hexdigest()`. -/
def hexDigestChars (hs : Hash8) : List Char :=
  word8Hex hs.a ++ word8Hex hs.b ++ word8Hex hs.c ++ word8Hex hs.d ++
  word8Hex hs.e ++ word8Hex hs.f ++ word8Hex hs.g ++ word8Hex hs.h

/-- UTF-8 bytes of a string; the canonical serializations digested by
`_stable_key` are ASCII, where the byte is the code point. -/
def strBytes (s : String) : List Nat := s.data.map Char.toNat

/-- The truncated digest used by `_stable_key`:
`hashlib.sha256(raw).hexdigest()[:24]` (`app/cache.py` line 31). -/
def digest24 (p : Payload) : List Char :=
  (hexDigestChars (sha256Words (strBytes (canonicalJson p)))).take 24

/-- The character list of a `_stable_key` result:
`f"geosearch:{prefix}:{digest}"` (`app/cache.py` line 32). -/
def stableKeyChars (pfx : String) (p : Payload) : List Char :=
  "geosearch:".data ++ pfx.data ++ [':'] ++ digest24 p

/-- `_stable_key(prefix, payload)` from `app/cache.py` lines 28-32. -/
def stableKey (pfx : String) (p : Payload) : String :=
  String.mk (stableKeyChars pfx p)

/-- A pattern character a Redis MATCH glob treats literally: not `*`, `?`,
`[` or `\` (a `]` outside a class and a `^` outside a class head are
literal). -/
def isGlobLiteral (ch : Char) : Bool :=
  !(ch == '*' || ch == '?' || ch == '[' || ch == '\\')

/-- A plain namespace-prefix character: not the `:` separator and not a
Redis glob metacharacter, so inside a scan pattern it matches exactly
itself and cannot shift the separator.  Every prefix the service uses
(`nearby`, `bbox`, `poi`, `categories`) consists of plain characters. -/
def isPlainChar (ch : Char) : Bool :=
  isGlobLiteral ch && !(ch == ':')

/-- One `[...]` character-class body of a Redis MATCH glob, after the
optional leading `^` has been stripped: entries are `\x` (escaped
literal), `a-b` (range, bounds in either order), `]` (terminator), and
otherwise a literal character; the scan accumulates whether the tested
character matched any entry and returns that flag together with the
number of pattern characters consumed, terminator included (an
unterminated class consumes the rest of the pattern). -/
def classScan (c : Char) : List Char → Bool → Bool × Nat
  | [], acc => (acc, 0)
  | '\\' :: q :: rest, acc =>
    let r := classScan c rest (acc || (q == c))
    (r.1, r.2 + 2)
  | ']' :: _, acc => (acc, 1)
  | a :: '-' :: b :: rest, acc =>
    let r := classScan c rest (acc || decide (min a b ≤ c ∧ c ≤ max a b))
    (r.1, r.2 + 3)
  | a :: rest, acc =>
    let r := classScan c rest (acc || (a == c))
    (r.1, r.2 + 1)

/-- Fuel-indexed core of Redis MATCH glob matching, modelled from Redis's
documented `stringmatchlen` semantics: `*` matches any (possibly empty)
sequence, `?` exactly one character, `[...]` a character class with an
optional leading `^` negation, and `\` escapes the following character (a
trailing `\` is literal); every other pattern character matches exactly
itself, and the whole key must be consumed.  Every step consumes a
pattern or a key character, so fuel exceeding their combined length never
runs out. -/
def globMatchF : Nat → List Char → List Char → Bool
  | 0, _, _ => false
  | _ + 1, [], s => s.isEmpty
  | fuel + 1, p :: ps, s =>
    if p = '*' then
      globMatchF fuel ps s ||
        (match s with
         | [] => false
         | _ :: s2 => globMatchF fuel (p :: ps) s2)
    else if p = '?' then
      match s with
      | [] => false
      | _ :: s2 => globMatchF fuel ps s2
    else if p = '\\' then
      match ps, s with
      | q :: ps2, c :: s2 => (q == c) && globMatchF fuel ps2 s2
      | [], c :: s2 => (p == c) && s2.isEmpty
      | _, [] => false
    else if p = '[' then
      match s with
      | [] => false
      | c :: s2 =>
        let negN : Nat := if ps.head? == some '^' then 1 else 0
        let body := ps.drop negN
        let r := classScan c body false
        (if negN = 1 then !r.1 else r.1) && globMatchF fuel (body.drop r.2) s2
    else
      match s with
      | [] => false
      | c :: s2 => (p == c) && globMatchF fuel ps s2

/-- Redis MATCH glob matching, as `scan_iter(match=...)` applies it in
`cache_clear_prefix` (`app/cache.py` line 127): the fuel, one more than
the combined pattern and key length, is always sufficient. -/
def globMatch (pat s : List Char) : Bool :=
  globMatchF (pat.length + s.length + 1) pat s

/-- Eligibility of a key for removal by `cache_clear_prefix(prefix)`
(`app/cache.py` lines 116-135): the Redis scan pattern is
`f"geosearch:{prefix}:*"`, matched with MATCH glob semantics — so the
prefix's own characters act as glob metacharacters when they are ones. -/
def eligibleForClear (pfx : String) (key : String) : Bool :=
  globMatch ("geosearch:".data ++ pfx.data ++ [':', '*']) key.data

/-! ## Geohash filter

Modelled from the spec: `get_neighbors_geohash` in `app/services.py` calls
`geohash2.encode` and `geohash2.neighbors`, a third-party library whose
source is not part of this repository.  Spec §4.1 fixes the behaviour:
tokens are fixed-length strings over the 32-character geohash alphabet,
`encode` bisects the longitude/latitude intervals alternately (longitude
first) emitting five bits per character, and the eight neighbor tokens are
the tokens of the adjacent cells at the same precision, wrapping longitude
at the antimeridian and clamping latitude at the poles. -/

/-- The 32-character geohash alphabet (base32 without `a`, `i`, `l`, `o`). -/
def geohashAlphabet : List Char := "0123456789bcdefghjkmnpqrstuvwxyz".data

/-- The bisection state of the geohash encoder: current latitude and
longitude intervals, and whether the next bit refines longitude. -/
structure GHFrame where
  latLo : Rat
  latHi : Rat
  lonLo : Rat
  lonHi : Rat
  isLon : Bool
deriving Repr

/-- The initial geohash bisection state. -/
def ghInit : GHFrame := ⟨-90, 90, -180, 180, true⟩

/-- One bisection step of the geohash encoder: emit a bit and halve the
current interval. -/
def ghStep (lat lon : Rat) (f : GHFrame) : Bool × GHFrame :=
  if f.isLon then
    let mid := (f.lonLo + f.lonHi) / 2
    if mid ≤ lon then (true, ⟨f.latLo, f.latHi, mid, f.lonHi, false⟩)
    else (false, ⟨f.latLo, f.latHi, f.lonLo, mid, false⟩)
  else
    let mid := (f.latLo + f.latHi) / 2
    if mid ≤ lat then (true, ⟨mid, f.latHi, f.lonLo, f.lonHi, true⟩)
    else (false, ⟨f.latLo, mid, f.lonLo, f.lonHi, true⟩)

/-- Five bisection steps producing one geohash character. -/
def ghCharStep (lat lon : Rat) (f : GHFrame) : Char × GHFrame :=
  let r0 := ghStep lat lon f
  let r1 := ghStep lat lon r0.2
  let r2 := ghStep lat lon r1.2
  let r3 := ghStep lat lon r2.2
  let r4 := ghStep lat lon r3.2
  let idx := (cond r0.1 16 0) + (cond r1.1 8 0) + (cond r2.1 4 0) +
    (cond r3.1 2 0) + (cond r4.1 1 0)
  (geohashAlphabet.getD idx '0', r4.2)

/-- The geohash characters of a point, one per precision level. -/
def ghEncodeAux (lat lon : Rat) (f : GHFrame) : Nat → List Char
  | 0 => []
  | n + 1 =>
    let r := ghCharStep lat lon f
    r.1 :: ghEncodeAux lat lon r.2 n

/-- Modelled from the spec: `geohash2.encode(lat, lon, precision)`. -/
def ghEncode (lat lon : Rat) (prec : Nat) : String :=
  String.mk (ghEncodeAux lat lon ghInit prec)

/-- Longitude wraparound into `[-180, 180)`, used when a neighbor cell
crosses the antimeridian. -/
def wrapLon (q : Rat) : Rat := q - 360 * ((Int.floor ((q + 180) / 360) : Int) : Rat)

/-- Latitude clamping into `[-90, 90]`, used when a neighbor cell would
cross a pole. -/
def clampLat (q : Rat) : Rat := max (-90) (min 90 q)

/-- The height of a geohash cell at a precision: latitude receives the even
bits of the `5 * prec` bit string (longitude starts). -/
def latCellSize (prec : Nat) : Rat := 180 / ((2 : Rat) ^ (5 * prec / 2))

/-- The width of a geohash cell at a precision: longitude receives the odd
bits, rounding up when `5 * prec` is odd. -/
def lonCellSize (prec : Nat) : Rat := 360 / ((2 : Rat) ^ ((5 * prec + 1) / 2))

/-- The eight lateral offsets of a cell, as multiples of the cell size. -/
def ghDirections : List (Int × Int) :=
  [(1, -1), (1, 0), (1, 1), (0, -1), (0, 1), (-1, -1), (-1, 0), (-1, 1)]

/-- Modelled from the spec: `geohash2.neighbors(center)` — the tokens of
the eight cells adjacent to the cell of the point, at the same precision,
with longitude wrapped and latitude clamped. -/
def ghNeighbors (lat lon : Rat) (prec : Nat) : List String :=
  ghDirections.map fun d =>
    ghEncode (clampLat (lat + (d.1 : Rat) * latCellSize prec))
      (wrapLon (lon + (d.2 : Rat) * lonCellSize prec)) prec

/-- `get_neighbors_geohash(lat, lon, precision)` from `app/services.py`
lines 33-37: the center token plus its eight neighbors. -/
def getNeighborsGeohash (lat lon : Rat) (prec : Nat) : List String :=
  ghEncode lat lon prec :: ghNeighbors lat lon prec

/-! ## Store rows and query results

The POI table of the store, and the row shapes returned by the SQL in
`app/queries.py`.  The store-assigned `created_at` / `updated_at`
timestamps are omitted: no logic under verification reads them.  PostGIS
geodesic distance (`ST_Distance` on `geography`) is an external
computation; queries take it as an explicit distance-function
parameter. -/

/-- A row of the `poi` table (columns selected by the queries in
`app/queries.py`). -/
structure POIRow where
  id : Nat
  name : String
  category : Option String
  lat : Rat
  lon : Rat
  geohash5 : String
  metadata : String
deriving Repr, DecidableEq

/-- The store state: the `poi` table in scan order, plus the next id the
store will assign. -/
structure Store where
  pois : List POIRow
  nextId : Nat
deriving Repr

/-- The `POIOutSimple` item shape returned by list searches
(`app/schemas.py` lines 52-61). -/
structure SItem where
  id : Nat
  name : String
  category : Option String
  lat : Rat
  lon : Rat
  dist_m : Option Rat
deriving Repr, DecidableEq

/-- A distance function standing in for the PostGIS
`ST_Distance(geom, point)` geography computation: arguments are query
latitude, query longitude, row latitude, row longitude. -/
abbrev DistFn := Rat → Rat → Rat → Rat → Rat

/-- The `(:category IS NULL OR category = :category)` predicate common to
the search queries; an SQL `=` against a NULL row category is not true. -/
def categoryMatch (category : Option String) (r : POIRow) : Bool :=
  match category with
  | none => true
  | some c => r.category == some c

/-- The list-search item built from a row and its selected `dist_m`. -/
def toSItem (rd : POIRow × Option Rat) : SItem :=
  ⟨rd.1.id, rd.1.name, rd.1.category, rd.1.lat, rd.1.lon, rd.2⟩

/-- `NEARBY_SQL` (`app/queries.py` lines 7-25): rows whose `geohash5` is in
the pre-filter list, matching the category filter, within `radius_m` of the
center, ordered by `dist_m` ascending — the `ORDER BY` names no further
column, so equal distances keep the underlying scan order (modelled by a
stable sort over the table order) — then `OFFSET` and `LIMIT`. -/
def nearbyRows (distFn : DistFn) (store : Store) (lat lon : Rat) (radius_m : Int)
    (category : Option String) (limit offset : Nat) (gh5 : List String) : List SItem :=
  let cand := store.pois.filter fun r =>
    gh5.contains r.geohash5 && categoryMatch category r &&
      decide (distFn lat lon r.lat r.lon ≤ (radius_m : Rat))
  let annotated := cand.map fun r => (r, distFn lat lon r.lat r.lon)
  let sorted := annotated.insertionSort fun x y => x.2 ≤ y.2
  ((sorted.drop offset).take limit).map fun rd => toSItem (rd.1, some rd.2)

/-- `BBOX_SQL` (`app/queries.py` lines 38-56): rows with `lat` and `lon`
between the bounds, matching the category filter, `dist_m` selected as
NULL, ordered by `id` descending, then `OFFSET` and `LIMIT`. -/
def bboxRows (store : Store) (minLat minLon maxLat maxLon : Rat)
    (category : Option String) (limit offset : Nat) : List SItem :=
  let cand := store.pois.filter fun r =>
    decide (minLat ≤ r.lat ∧ r.lat ≤ maxLat ∧ minLon ≤ r.lon ∧ r.lon ≤ maxLon) &&
      categoryMatch category r
  let sorted := cand.insertionSort fun x y => y.id ≤ x.id
  ((sorted.drop offset).take limit).map fun r => toSItem (r, none)

/-- `GET_POI_SQL` (`app/queries.py` lines 91-103): the row with the given
id, if any. -/
def storeFind (store : Store) (poiId : Nat) : Option POIRow :=
  store.pois.find? fun r => r.id == poiId

/-- A category name with its count (`CategoryInfo`, `app/schemas.py`
lines 178-181). -/
structure CatInfo where
  name : String
  count : Nat
deriving Repr, DecidableEq

/-- `CATEGORIES_SQL` (`app/queries.py` lines 155-163): distinct non-NULL
categories with their counts, ordered by count descending (no further sort
column; ties keep the grouping order, modelled as first-appearance order in
the table). -/
def categoriesFresh (store : Store) : List CatInfo :=
  let cats := (store.pois.filterMap (fun r => r.category)).dedup
  let counted := cats.map fun c =>
    CatInfo.mk c ((store.pois.filter (fun r => r.category == some c)).length)
  counted.insertionSort fun x y => y.count ≤ x.count

/-! ## The result cache at the service level

`POIService` (`app/services.py`) reads and writes the cache through the
`cache_get` / `cache_set` / `cache_delete` / `cache_clear_prefix` helpers
of `app/cache.py`.  At this level the cache is modelled as a map from key
strings to already-deserialized values (`orjson` round-trips the payload
shapes the service stores), and every backend access is recorded in an
effect trace.  A byte- and expiry-accurate model of `app/cache.py` itself
follows further below for the cache-layer claims. -/

/-- A value the service stores in the cache: a search result page, a single
POI row, or the category listing. -/
inductive CacheVal where
  | search : List SItem → Nat → CacheVal
  | poiVal : POIRow → CacheVal
  | catsVal : List CatInfo → CacheVal
deriving DecidableEq, Repr

/-- The service-level cache state. -/
abbrev CacheMap := String → Option CacheVal

/-- One observable access to the store, the cache backend, or the pub/sub
channel. -/
inductive Effect where
  | storeRead : Nat → Effect
  | storeQuery : Effect
  | storeWrite : Nat → Effect
  | cacheRead : String → Effect
  | cacheWrite : String → Effect
  | cacheDel : String → Effect
  | clearPrefixAll : String → Effect
  | publishEvt : String → String → Effect
deriving DecidableEq, Repr

/-- `cache_get` as seen by the service: `settings.cache_enabled` is checked
before any backend access (`app/cache.py` lines 45-46). -/
def cacheGetSvc (enabled : Bool) (c : CacheMap) (key : String) :
    Option CacheVal × List Effect :=
  if enabled = false then (none, [])
  else (c key, [Effect.cacheRead key])

/-- `cache_set` as seen by the service: a no-op when caching is disabled
(`app/cache.py` lines 77-78). -/
def cacheSetSvc (enabled : Bool) (c : CacheMap) (key : String) (v : CacheVal) :
    CacheMap × List Effect :=
  if enabled = false then (c, [])
  else (fun k => if k = key then some v else c k, [Effect.cacheWrite key])

/-- `cache_delete` as seen by the service: the source consults
`settings.cache_enabled` in `cache_get` and `cache_set` but not here
(`app/cache.py` lines 96-113), so the delete always reaches the
backend. -/
def cacheDeleteSvc (c : CacheMap) (key : String) : CacheMap × List Effect :=
  (fun k => if k = key then none else c k, [Effect.cacheDel key])

/-- `cache_clear_prefix` as seen by the service: scan-and-delete of every
key matching `geosearch:{prefix}:*`; not gated on `settings.cache_enabled`
(`app/cache.py` lines 116-135). -/
def clearPrefixSvc (c : CacheMap) (pfx : String) : CacheMap × List Effect :=
  (fun k => if eligibleForClear pfx k then none else c k, [Effect.clearPrefixAll pfx])

/-! ## POIService operations (`app/services.py`) -/

/-- `round(x, 5)` as used on the cache-payload coordinates
(`app/services.py` lines 61-62); modelled as exact rational rounding to
five decimal places (half away from zero rather than Python's
half-to-even, which differs only on exact midpoints and affects no claim
below). -/
def round5 (q : Rat) : Rat := ((Int.floor (q * 100000 + 1 / 2) : Int) : Rat) / 100000

/-- An optional string as a payload value: None or the string. -/
def jopt : Option String → JVal
  | none => JVal.jnull
  | some s => JVal.jstr s

/-- The `cache_payload` dict of `nearby_search` (`app/services.py`
lines 60-67), in its insertion order. -/
def nearbyPayload (lat lon : Rat) (radius_m : Int) (category : Option String)
    (limit offset : Nat) : Payload :=
  [("lat", JVal.jrat (round5 lat)), ("lon", JVal.jrat (round5 lon)),
   ("radius_m", JVal.jint radius_m), ("category", jopt category),
   ("limit", JVal.jint limit), ("offset", JVal.jint offset)]

/-- The `cache_payload` dict of `bbox_search` (`app/services.py`
lines 135-143), in its insertion order. -/
def bboxPayload (minLat minLon maxLat maxLon : Rat) (category : Option String)
    (limit offset : Nat) : Payload :=
  [("min_lat", JVal.jrat (round5 minLat)), ("min_lon", JVal.jrat (round5 minLon)),
   ("max_lat", JVal.jrat (round5 maxLat)), ("max_lon", JVal.jrat (round5 maxLon)),
   ("category", jopt category), ("limit", JVal.jint limit),
   ("offset", JVal.jint offset)]

/-- The `{"id": poi_id}` payload used by `get_poi`, `update_poi` and
`delete_poi`. -/
def poiPayload (poiId : Nat) : Payload := [("id", JVal.jint poiId)]

/-- A service error: the exceptions of `app/exceptions.py` raised by
`POIService` (`ValidationError`, `POINotFoundError`). -/
inductive SvcError where
  | validation : String → SvcError
  | notFound : Nat → SvcError
deriving DecidableEq, Repr

/-- The return value of `nearby_search`. -/
structure NearbyRes where
  cached : Bool
  items : List SItem
  count : Nat
  centerLat : Rat
  centerLon : Rat
  radius_m : Int
deriving Repr, DecidableEq

/-- The return value of `bbox_search`. -/
structure BBoxRes where
  cached : Bool
  items : List SItem
  count : Nat
  minLat : Rat
  minLon : Rat
  maxLat : Rat
  maxLon : Rat
deriving Repr, DecidableEq

/-- `POIService.nearby_search` (`app/services.py` lines 46-115): build the
cache payload, try the cache, and on a miss run the geohash-prefiltered
store query and cache the page.  A cached value that is not a search page
cannot have been written under a `nearby` key by this service and is
treated as a miss. -/
def nearbySearchM (enabled : Bool) (distFn : DistFn) (prec : Nat) (st : Store)
    (c : CacheMap) (lat lon : Rat) (radius_m : Int) (category : Option String)
    (limit offset : Nat) : NearbyRes × CacheMap × List Effect :=
  let key := stableKey "nearby" (nearbyPayload lat lon radius_m category limit offset)
  match cacheGetSvc enabled c key with
  | (some (CacheVal.search items cnt), eff) =>
    (⟨true, items, cnt, lat, lon, radius_m⟩, c, eff)
  | (_, eff) =>
    let gh5 := getNeighborsGeohash lat lon prec
    let items := nearbyRows distFn st lat lon radius_m category limit offset gh5
    let r := cacheSetSvc enabled c key (CacheVal.search items items.length)
    (⟨false, items, items.length, lat, lon, radius_m⟩, r.1,
      eff ++ [Effect.storeQuery] ++ r.2)

/-- `POIService.bbox_search` (`app/services.py` lines 117-195): raise
`ValidationError` when `min_lat > max_lat or min_lon > max_lon`
(lines 130-132) before any cache or store access; otherwise cache-or-query
as in `nearby_search`. -/
def bboxSearchM (enabled : Bool) (st : Store) (c : CacheMap)
    (minLat minLon maxLat maxLon : Rat) (category : Option String)
    (limit offset : Nat) : Except SvcError BBoxRes × CacheMap × List Effect :=
  if decide (maxLat < minLat) || decide (maxLon < minLon) then
    (Except.error (SvcError.validation
      "Invalid bounding box: min values must be less than max values"), c, [])
  else
    let key := stableKey "bbox" (bboxPayload minLat minLon maxLat maxLon category limit offset)
    match cacheGetSvc enabled c key with
    | (some (CacheVal.search items cnt), eff) =>
      (Except.ok ⟨true, items, cnt, minLat, minLon, maxLat, maxLon⟩, c, eff)
    | (_, eff) =>
      let items := bboxRows st minLat minLon maxLat maxLon category limit offset
      let r := cacheSetSvc enabled c key (CacheVal.search items items.length)
      (Except.ok ⟨false, items, items.length, minLat, minLon, maxLat, maxLon⟩, r.1,
        eff ++ [Effect.storeQuery] ++ r.2)

/-- `POIService.get_poi` (`app/services.py` lines 197-215): cache, then
store, raising `POINotFoundError` when the id is absent. -/
def getPoiM (enabled : Bool) (st : Store) (c : CacheMap) (poiId : Nat) :
    Except SvcError POIRow × CacheMap × List Effect :=
  let key := stableKey "poi" (poiPayload poiId)
  match cacheGetSvc enabled c key with
  | (some (CacheVal.poiVal row), eff) => (Except.ok row, c, eff)
  | (_, eff) =>
    match storeFind st poiId with
    | none => (Except.error (SvcError.notFound poiId), c, eff ++ [Effect.storeRead poiId])
    | some row =>
      let r := cacheSetSvc enabled c key (CacheVal.poiVal row)
      (Except.ok row, r.1, eff ++ [Effect.storeRead poiId] ++ r.2)

/-- `POIService.get_categories` (`app/services.py` lines 336-354). -/
def getCategoriesM (enabled : Bool) (st : Store) (c : CacheMap) :
    List CatInfo × CacheMap × List Effect :=
  let key := stableKey "categories" []
  match cacheGetSvc enabled c key with
  | (some (CacheVal.catsVal cs), eff) => (cs, c, eff)
  | (_, eff) =>
    let cs := categoriesFresh st
    let r := cacheSetSvc enabled c key (CacheVal.catsVal cs)
    (cs, r.1, eff ++ [Effect.storeQuery] ++ r.2)

/-- The fields of `POICreate` (`app/schemas.py` lines 23-25). -/
structure POICreateData where
  name : String
  category : Option String
  lat : Rat
  lon : Rat
  metadata : String
deriving Repr, DecidableEq

/-- The fields of `POIUpdate` (`app/schemas.py` lines 28-34); `none` means
the field is not being changed. -/
structure POIUpdateData where
  name : Option String
  category : Option String
  lat : Option Rat
  lon : Option Rat
  metadata : Option String
deriving Repr, DecidableEq

/-- `POIService.create_poi` (`app/services.py` lines 217-255): compute the
geohash, insert, commit, clear the `nearby` and `bbox` cache prefixes, and
publish a `created` event.  No entry is written for the new row and the
`categories` prefix is not cleared. -/
def createPoiM (prec : Nat) (st : Store) (c : CacheMap) (d : POICreateData) :
    POIRow × Store × CacheMap × List Effect :=
  let gh := ghEncode d.lat d.lon prec
  let row : POIRow := ⟨st.nextId, d.name, d.category, d.lat, d.lon, gh, d.metadata⟩
  let st2 : Store := ⟨st.pois ++ [row], st.nextId + 1⟩
  let r1 := clearPrefixSvc c "nearby"
  let r2 := clearPrefixSvc r1.1 "bbox"
  (row, st2, r2.1,
    [Effect.storeWrite row.id] ++ r1.2 ++ r2.2 ++ [Effect.publishEvt "poi" "created"])

/-- `POIService.update_poi` (`app/services.py` lines 257-308): existence
check first (`POINotFoundError` when absent, before any mutation), then the
`COALESCE`-based update of `UPDATE_POI_SQL` with the geohash recomputed
when either coordinate is set, commit, entity-entry delete, `nearby` and
`bbox` prefix clears, and an `updated` event. -/
def updatePoiM (prec : Nat) (st : Store) (c : CacheMap) (poiId : Nat)
    (d : POIUpdateData) : Except SvcError POIRow × Store × CacheMap × List Effect :=
  match storeFind st poiId with
  | none => (Except.error (SvcError.notFound poiId), st, c, [Effect.storeRead poiId])
  | some old =>
    let newGh : Option String :=
      if d.lat.isSome || d.lon.isSome then
        some (ghEncode (d.lat.getD old.lat) (d.lon.getD old.lon) prec)
      else none
    let row : POIRow :=
      ⟨poiId, d.name.getD old.name,
       (match d.category with | none => old.category | some cat => some cat),
       d.lat.getD old.lat, d.lon.getD old.lon, newGh.getD old.geohash5,
       d.metadata.getD old.metadata⟩
    let st2 : Store := ⟨st.pois.map fun r => if r.id == poiId then row else r, st.nextId⟩
    let r0 := cacheDeleteSvc c (stableKey "poi" (poiPayload poiId))
    let r1 := clearPrefixSvc r0.1 "nearby"
    let r2 := clearPrefixSvc r1.1 "bbox"
    (Except.ok row, st2, r2.1,
      [Effect.storeRead poiId, Effect.storeWrite poiId] ++ r0.2 ++ r1.2 ++ r2.2 ++
        [Effect.publishEvt "poi" "updated"])

/-- `POIService.delete_poi` (`app/services.py` lines 310-334): existence
check first (`POINotFoundError` when absent, before any mutation), then
delete, commit, entity-entry delete, `nearby` and `bbox` prefix clears,
and a `deleted` event. -/
def deletePoiM (st : Store) (c : CacheMap) (poiId : Nat) :
    Except SvcError Bool × Store × CacheMap × List Effect :=
  match storeFind st poiId with
  | none => (Except.error (SvcError.notFound poiId), st, c, [Effect.storeRead poiId])
  | some _ =>
    let st2 : Store := ⟨st.pois.filter fun r => !(r.id == poiId), st.nextId⟩
    let r0 := cacheDeleteSvc c (stableKey "poi" (poiPayload poiId))
    let r1 := clearPrefixSvc r0.1 "nearby"
    let r2 := clearPrefixSvc r1.1 "bbox"
    (Except.ok true, st2, r2.1,
      [Effect.storeRead poiId, Effect.storeWrite poiId] ++ r0.2 ++ r1.2 ++ r2.2 ++
        [Effect.publishEvt "poi" "deleted"])

/-! ## The cache layer over the Redis backend (`app/cache.py`)

A byte-accurate model for the cache-layer claims: entries are serialized
blobs with an absolute expiry, the backend can be failing (every command
raises `RedisError`), and (de)serialization is an explicit, fallible
parameter standing in for `orjson`. -/

/-- The Redis backend state: entries as (key, blob, absolute expiry), and
whether every command currently fails with `RedisError`. -/
structure Backend where
  entries : List (String × String × Nat)
  failing : Bool
deriving Repr, DecidableEq

/-- A Redis `GET`: an error when the backend is failing, otherwise the
blob of the unexpired entry under the key, if any (an expired entry is
indistinguishable from an absent one). -/
def redisGet (be : Backend) (now : Nat) (key : String) : Except Unit (Option String) :=
  if be.failing then Except.error ()
  else Except.ok ((be.entries.find? fun e => e.1 == key && decide (now < e.2.2)).map
    fun e => e.2.1)

/-- `cache_get(prefix, payload)` (`app/cache.py` lines 35-62): `None` when
caching is disabled; otherwise derive the key, `GET`, and return the
deserialized value — with `RedisError` and `orjson.JSONDecodeError` both
caught and logged, so absence, expiry, backend failure and decode failure
all return `None` and nothing propagates to the caller. -/
def cacheGetOp {α : Type} (decode : String → Option α) (enabled : Bool)
    (be : Backend) (now : Nat) (pfx : String) (payload : Payload) : Option α :=
  if enabled = false then none
  else
    match redisGet be now (stableKey pfx payload) with
    | Except.error _ => none
    | Except.ok none => none
    | Except.ok (some blob) => decode blob

/-- `cache_set(prefix, payload, value, ttl)` (`app/cache.py` lines 65-93):
`False` when caching is disabled; otherwise serialize and `SETEX`, with
serialization errors and `RedisError` caught and logged (`False`), and
`True` on success. -/
def cacheSetOp {α : Type} (encode : α → Option String) (enabled : Bool)
    (be : Backend) (now : Nat) (pfx : String) (payload : Payload) (v : α)
    (ttl : Nat) : Bool × Backend :=
  if enabled = false then (false, be)
  else
    let key := stableKey pfx payload
    match encode v with
    | none => (false, be)
    | some blob =>
      if be.failing then (false, be)
      else
        (true, ⟨(key, blob, now + ttl) :: be.entries.filter fun e => !(e.1 == key),
          be.failing⟩)

set_option linter.unusedVariables false in
/-- `cache_delete(prefix, payload)` (`app/cache.py` lines 96-113): derive
the key and `DELETE`, returning whether an entry was removed; `RedisError`
is caught (`False`).  Unlike `cache_get` and `cache_set`, the source does
not consult `settings.cache_enabled` here — the flag parameter is kept
solely so that this independence can be stated. -/
def cacheDeleteOp (enabled : Bool) (be : Backend) (pfx : String)
    (payload : Payload) : Bool × Backend :=
  let key := stableKey pfx payload
  if be.failing then (false, be)
  else
    let removed := (be.entries.filter fun e => e.1 == key).length
    (decide (0 < removed), ⟨be.entries.filter fun e => !(e.1 == key), be.failing⟩)

/-- `cache_clear_prefix(prefix)` (`app/cache.py` lines 116-135): scan for
`geosearch:{prefix}:*` and delete the matches, returning the count;
`RedisError` is caught (`0`).  Also not gated on `settings.cache_enabled`. -/
def cacheClearPrefixAll (be : Backend) (pfx : String) : Nat × Backend :=
  if be.failing then (0, be)
  else
    let victims := be.entries.filter fun e => eligibleForClear pfx e.1
    (victims.length, ⟨be.entries.filter fun e => !(eligibleForClear pfx e.1), be.failing⟩)

/-! ## Value projections and concrete instances used in the theorems -/

/-- The value part of a `nearby_search` result: everything except the
`cached` flag. -/
def NearbyRes.value (r : NearbyRes) : List SItem × Nat × Rat × Rat × Int :=
  (r.items, r.count, r.centerLat, r.centerLon, r.radius_m)

/-- The value part of a `bbox_search` result: everything except the
`cached` flag. -/
def BBoxRes.value (r : BBoxRes) : List SItem × Nat × Rat × Rat × Rat × Rat :=
  (r.items, r.count, r.minLat, r.minLon, r.maxLat, r.maxLon)

/-- The distance column of a returned search item (`dist_m`, which
`NEARBY_SQL` always selects as a number). -/
def distOf (it : SItem) : Rat := it.dist_m.getD 0

/-- The empty service-level cache. -/
def emptyCache : CacheMap := fun _ => none

/-- A concrete stand-in for the store's distance computation on which the
two tie rows below are equidistant from the query point — as `ST_Distance`
itself is for points placed symmetrically about the center. -/
def tieDist : DistFn := fun _ _ _ _ => 1

/-- A row with id 2 at (0, 1): distance 1 from the origin under
`tieDist`. -/
def rowTieA : POIRow := ⟨2, "b", none, 0, 1, "x", "\x7b\x7d"⟩

/-- A row with id 1 at (1, 0): also distance 1 from the origin under
`tieDist`. -/
def rowTieB : POIRow := ⟨1, "a", none, 1, 0, "x", "\x7b\x7d"⟩

/-- A store whose scan order lists the higher id first: reachable, since
the SQL promises no scan order and row updates reorder the physical scan. -/
def tieStore : Store := ⟨[rowTieA, rowTieB], 3⟩

/-- An empty store with next id 1. -/
def emptyStore : Store := ⟨[], 1⟩

/-- A one-row store for the witnesses. -/
def oneRowStore : Store := ⟨[⟨1, "Test Cafe", some "cafe", 0, 0, "x", "\x7b\x7d"⟩], 2⟩

/-- A create request introducing a category that is new to the store. -/
def newCafeData : POICreateData := ⟨"Test Cafe", some "cafe", 0, 0, "\x7b\x7d"⟩

/-- A backend holding one unexpired entry under the key the service would
derive for POI 7. -/
def oneEntryBackend : Backend := ⟨[(stableKey "poi" (poiPayload 7), "blob", 100)], false⟩

/-! # Theorems -/

/-- Transitivity of the payload field order. -/
theorem keyLe_trans : ∀ a b c : String × JVal, keyLe a b → keyLe b c → keyLe a c := by
  intro a b c hab hbc
  simp only [keyLe, decide_eq_true_eq] at hab hbc ⊢
  exact le_trans hab hbc

/-- Totality of the payload field order. -/
theorem keyLe_total : ∀ a b : String × JVal, keyLe a b || keyLe b a := by
  intro a b
  simp only [keyLe, Bool.or_eq_true, decide_eq_true_eq]
  exact le_total a.1 b.1

/-- Two payloads with the same field/value pairs and duplicate-free field
names have the same canonical field order. -/
theorem sortPayload_eq_of_perm {l₁ l₂ : Payload} (hp : l₁.Perm l₂)
    (hnd : (l₁.map Prod.fst).Nodup) : sortPayload l₁ = sortPayload l₂ := by
  have hperm : (sortPayload l₁).Perm (sortPayload l₂) :=
    (List.mergeSort_perm l₁ keyLe).trans (hp.trans (List.mergeSort_perm l₂ keyLe).symm)
  have hs₁ : (sortPayload l₁).Pairwise fun a b => a.1 ≤ b.1 :=
    (List.sorted_mergeSort keyLe_trans keyLe_total l₁).imp (by
      intro a b h
      simpa [keyLe] using h)
  have hs₂ : (sortPayload l₂).Pairwise fun a b => a.1 ≤ b.1 :=
    (List.sorted_mergeSort keyLe_trans keyLe_total l₂).imp (by
      intro a b h
      simpa [keyLe] using h)
  have hnd₁ : ((sortPayload l₁).map Prod.fst).Nodup :=
    (((List.mergeSort_perm l₁ keyLe).map Prod.fst).nodup_iff).mpr hnd
  have hnd₂ : ((sortPayload l₂).map Prod.fst).Nodup :=
    ((hperm.map Prod.fst).nodup_iff).mp hnd₁
  have hlt₁ : (sortPayload l₁).Pairwise fun a b : String × JVal => a.1 < b.1 := by
    have hne : (sortPayload l₁).Pairwise fun a b : String × JVal => a.1 ≠ b.1 :=
      List.pairwise_map.mp hnd₁
    exact (hs₁.and hne).imp fun h => lt_of_le_of_ne h.1 h.2
  have hlt₂ : (sortPayload l₂).Pairwise fun a b : String × JVal => a.1 < b.1 := by
    have hne : (sortPayload l₂).Pairwise fun a b : String × JVal => a.1 ≠ b.1 :=
      List.pairwise_map.mp hnd₂
    exact (hs₂.and hne).imp fun h => lt_of_le_of_ne h.1 h.2
  haveI : IsAntisymm (String × JVal) (fun a b => a.1 < b.1) :=
    ⟨fun a b h₁ h₂ => absurd h₂ (lt_asymm h₁)⟩
  exact List.eq_of_perm_of_sorted hperm hlt₁ hlt₂

/-- Claim C1: cache-key derivation is deterministic — two payload dicts
holding the same field/value pairs (any insertion order, duplicate-free
field names, numeric fields already identically rounded) yield the
identical `_stable_key` string.  The companion clause — that distinct
payloads collide only with negligible probability — is a probabilistic
property of the truncated SHA-256 digest with no counterpart in this
embedding. -/
theorem stable_key_deterministic (pfx : String) (l₁ l₂ : Payload)
    (hp : l₁.Perm l₂) (hnd : (l₁.map Prod.fst).Nodup) :
    stableKey pfx l₁ = stableKey pfx l₂ := by
  have h := sortPayload_eq_of_perm hp hnd
  simp [stableKey, stableKeyChars, digest24, canonicalJson, h]

/-- Witness for C1: the nearby-search payload shape under two insertion
orders derives the same key. -/
theorem stable_key_deterministic_witness :
    stableKey "nearby"
        [("lat", JVal.jrat 1), ("lon", JVal.jrat 2), ("radius_m", JVal.jint 1000)] =
      stableKey "nearby"
        [("radius_m", JVal.jint 1000), ("lat", JVal.jrat 1), ("lon", JVal.jrat 2)] :=
  stable_key_deterministic "nearby" _ _ (by decide) (by decide)

/-- Unfolding of the string constructor's character list. -/
theorem data_mk (l : List Char) : (String.mk l).data = l := rfl

/-- Strings with equal character lists are equal. -/
theorem string_eq_of_data {s t : String} (h : s.data = t.data) : s = t := by
  cases s
  cases t
  exact congrArg String.mk h

/-- Indexing into the hex alphabet stays in the hex alphabet. -/
theorem hexDigits_getD_mem : ∀ i, i < 16 → hexDigits.getD i '0' ∈ hexDigits := by decide

/-- Every character produced by `hexChar` is a lowercase hex digit. -/
theorem hexChar_mem (n : Nat) : hexChar n ∈ hexDigits :=
  hexDigits_getD_mem (n % 16) (Nat.mod_lt n (by omega))

/-- Every character of a word's hex rendering is a lowercase hex digit. -/
theorem word8Hex_mem (w : Nat) : ∀ c ∈ word8Hex w, c ∈ hexDigits := by
  intro c hc
  obtain ⟨i, _, rfl⟩ := List.mem_map.mp hc
  exact hexChar_mem _

/-- The truncated digest has exactly 24 characters. -/
theorem digest24_length (p : Payload) : (digest24 p).length = 24 := by
  simp [digest24, hexDigestChars, word8Hex]

/-- Every character of the full hex digest is a lowercase hex digit. -/
theorem hexDigestChars_mem (hs : Hash8) : ∀ c ∈ hexDigestChars hs, c ∈ hexDigits := by
  intro c hc
  simp only [hexDigestChars, List.mem_append] at hc
  rcases hc with ((((((hc | hc) | hc) | hc) | hc) | hc) | hc) | hc <;>
    exact word8Hex_mem _ _ hc

/-- Every character of the truncated digest is a lowercase hex digit. -/
theorem digest24_mem (p : Payload) : ∀ c ∈ digest24 p, c ∈ hexDigits := fun _ hc =>
  hexDigestChars_mem _ _ (List.mem_of_mem_take hc)

/-- If `xs ++ [d]` is a prefix of `ys ++ d :: zs` and the separator `d`
occurs in neither `xs` nor `ys`, the separator positions align, so
`xs = ys`. -/
theorem append_sep_align {d : Char} :
    ∀ {xs ys zs : List Char}, d ∉ xs → d ∉ ys →
      (xs ++ [d]) <+: (ys ++ d :: zs) → xs = ys := by
  intro xs
  induction xs with
  | nil =>
    intro ys zs _ hy h
    cases ys with
    | nil => rfl
    | cons y ytl =>
      exfalso
      simp only [List.nil_append, List.cons_append] at h
      obtain ⟨h1, _⟩ := List.cons_prefix_cons.mp h
      cases h1
      exact hy (List.mem_cons_self _ _)
  | cons x xtl ih =>
    intro ys zs hx hy h
    cases ys with
    | nil =>
      exfalso
      simp only [List.cons_append, List.nil_append] at h
      obtain ⟨h1, _⟩ := List.cons_prefix_cons.mp h
      cases h1
      exact hx (List.mem_cons_self _ _)
    | cons y ytl =>
      simp only [List.cons_append] at h
      obtain ⟨h1, h2⟩ := List.cons_prefix_cons.mp h
      cases h1
      have htl : xtl = ytl :=
        ih (fun hm => hx (List.mem_cons_of_mem _ hm))
          (fun hm => hy (List.mem_cons_of_mem _ hm)) h2
      rw [htl]

/-- Unpacking of glob-literality into the four inequalities. -/
theorem isGlobLiteral_spec {p : Char} (hs : isGlobLiteral p = true) :
    ¬ p = '*' ∧ ¬ p = '?' ∧ ¬ p = '\\' ∧ ¬ p = '[' := by
  refine ⟨?_, ?_, ?_, ?_⟩ <;> (rintro rfl; simp [isGlobLiteral] at hs)

/-- Unpacking of plain-prefix characters: all glob-literal, and no `:`
among them. -/
theorem isPlainChar_spec {l : List Char} (h : ∀ ch ∈ l, isPlainChar ch = true) :
    (∀ ch ∈ l, isGlobLiteral ch = true) ∧ ':' ∉ l := by
  constructor
  · intro ch hm
    have hc := h ch hm
    simp only [isPlainChar, Bool.and_eq_true] at hc
    exact hc.1
  · intro hm
    have hc := h ':' hm
    simp [isPlainChar] at hc

/-- Unfolding of the matcher at positive fuel and a non-empty pattern. -/
theorem globMatchF_succ (fuel : Nat) (p : Char) (ps s : List Char) :
    globMatchF (fuel + 1) (p :: ps) s =
      (if p = '*' then
        globMatchF fuel ps s ||
          (match s with
           | [] => false
           | _ :: s2 => globMatchF fuel (p :: ps) s2)
      else if p = '?' then
        match s with
        | [] => false
        | _ :: s2 => globMatchF fuel ps s2
      else if p = '\\' then
        match ps, s with
        | q :: ps2, c :: s2 => (q == c) && globMatchF fuel ps2 s2
        | [], c :: s2 => (p == c) && s2.isEmpty
        | _, [] => false
      else if p = '[' then
        match s with
        | [] => false
        | c :: s2 =>
          let negN : Nat := if ps.head? == some '^' then 1 else 0
          let body := ps.drop negN
          let r := classScan c body false
          (if negN = 1 then !r.1 else r.1) && globMatchF fuel (body.drop r.2) s2
      else
        match s with
        | [] => false
        | c :: s2 => (p == c) && globMatchF fuel ps s2) := rfl

/-- Unfolding of the matcher at positive fuel and an exhausted pattern. -/
theorem globMatchF_nil_pat (fuel : Nat) (s : List Char) :
    globMatchF (fuel + 1) [] s = s.isEmpty := rfl

/-- With fuel exceeding the key length, a lone `*` matches any key. -/
theorem globMatchF_star :
    ∀ (fuel : Nat) (s : List Char), s.length + 1 < fuel →
      globMatchF fuel ['*'] s = true := by
  intro fuel
  induction fuel with
  | zero =>
    intro s h
    exact absurd h (by omega)
  | succ f ih =>
    intro s h
    cases s with
    | nil =>
      obtain ⟨f2, rfl⟩ : ∃ f2, f = f2 + 1 := ⟨f - 1, by simp at h; omega⟩
      simp [globMatchF_succ, globMatchF_nil_pat]
    | cons c s2 =>
      have h2 : s2.length + 1 < f := by
        simp only [List.length_cons] at h
        omega
      simp [globMatchF_succ, ih s2 h2]

/-- With positive fuel, a literal (non-metacharacter) pattern character
consumes exactly one equal key character. -/
theorem globMatchF_literal_step (f : Nat) (p : Char) (hs : isGlobLiteral p = true)
    (ps : List Char) (c : Char) (s : List Char) :
    globMatchF (f + 1) (p :: ps) (c :: s) = ((p == c) && globMatchF f ps s) := by
  obtain ⟨h1, h2, h3, h4⟩ := isGlobLiteral_spec hs
  rw [globMatchF_succ, if_neg h1, if_neg h2, if_neg h3, if_neg h4]

/-- With positive fuel, a literal pattern character rejects an exhausted
key. -/
theorem globMatchF_literal_nil (f : Nat) (p : Char) (hs : isGlobLiteral p = true)
    (ps : List Char) : globMatchF (f + 1) (p :: ps) [] = false := by
  obtain ⟨h1, h2, h3, h4⟩ := isGlobLiteral_spec hs
  rw [globMatchF_succ, if_neg h1, if_neg h2, if_neg h3, if_neg h4]

/-- With sufficient fuel, a pattern of literal characters followed by a
final `*` matches exactly the keys extending those characters. -/
theorem globMatchF_literal_star :
    ∀ (lits : List Char) (fuel : Nat) (s : List Char),
      (∀ ch ∈ lits, isGlobLiteral ch = true) →
      (lits ++ ['*']).length + s.length < fuel →
      (globMatchF fuel (lits ++ ['*']) s = true ↔ lits <+: s) := by
  intro lits
  induction lits with
  | nil =>
    intro fuel s _ hb
    have hb2 : s.length + 1 < fuel := by
      simp only [List.nil_append, List.length_cons, List.length_nil] at hb
      omega
    rw [List.nil_append, globMatchF_star fuel s hb2]
    simp
  | cons p rest ih =>
    intro fuel s h hb
    have hp := h p (List.mem_cons_self _ _)
    have hrest : ∀ ch ∈ rest, isGlobLiteral ch = true :=
      fun ch hm => h ch (List.mem_cons_of_mem _ hm)
    obtain ⟨f, rfl⟩ : ∃ f, fuel = f + 1 := ⟨fuel - 1, by
      simp only [List.length_append, List.length_cons, List.length_nil] at hb
      omega⟩
    cases s with
    | nil =>
      rw [List.cons_append, globMatchF_literal_nil f p hp]
      simp
    | cons c s2 =>
      have hb2 : (rest ++ ['*']).length + s2.length < f := by
        simp only [List.length_append, List.length_cons, List.length_nil] at hb ⊢
        omega
      rw [List.cons_append, globMatchF_literal_step f p hp]
      simp [ih f s2 hrest hb2, List.cons_prefix_cons]

/-- A pattern of literal characters followed by a final `*` matches
exactly the keys extending those characters. -/
theorem glob_literal_star (lits : List Char) (s : List Char)
    (h : ∀ ch ∈ lits, isGlobLiteral ch = true) :
    (globMatch (lits ++ ['*']) s = true ↔ lits <+: s) :=
  globMatchF_literal_star lits ((lits ++ ['*']).length + s.length + 1) s h (by omega)

/-- Every character of the scan pattern built from a plain prefix is
glob-literal. -/
theorem key_pattern_literal {q : String} (hq : ∀ ch ∈ q.data, isPlainChar ch = true) :
    ∀ ch ∈ ("geosearch:".data ++ q.data ++ [':'] : List Char), isGlobLiteral ch = true := by
  have hhead : ∀ ch ∈ ("geosearch:".data : List Char), isGlobLiteral ch = true := by decide
  intro ch hm
  rcases List.mem_append.mp hm with hm1 | hm2
  · rcases List.mem_append.mp hm1 with hm3 | hm4
    · exact hhead ch hm3
    · exact (isPlainChar_spec hq).1 ch hm4
  · have : ch = ':' := by simpa using hm2
    subst this
    decide

/-- Claim C10 (amended): every `_stable_key` result has the exact form
`geosearch:{prefix}:{digest}` with a 24-character lowercase-hex digest;
and for namespace prefixes made of plain characters — no `:` separator
and no Redis glob metacharacter (`*`, `?`, `[`, `\`), which holds for all
prefixes the service uses (`nearby`, `bbox`, `poi`, `categories`) — a key
written with prefix `pfx` is eligible for removal by
`cache_clear_prefix(q)` exactly when `q = pfx`, so entries under any other
plain prefix are untouched.  Both restrictions are forced by the
counterexample below: a `:` inside a prefix shifts the namespace
separator, and a glob metacharacter makes the scan pattern match foreign
namespaces. -/
theorem stable_key_namespace (pfx q : String) (p : Payload)
    (hpfx : ∀ ch ∈ pfx.data, isPlainChar ch = true)
    (hq : ∀ ch ∈ q.data, isPlainChar ch = true) :
    (∃ d : List Char,
      stableKey pfx p = String.mk ("geosearch:".data ++ pfx.data ++ [':'] ++ d) ∧
      d.length = 24 ∧ ∀ c ∈ d, c ∈ hexDigits) ∧
    (eligibleForClear q (stableKey pfx p) = true ↔ q = pfx) := by
  have hcolq := (isPlainChar_spec hq).2
  have hcolp := (isPlainChar_spec hpfx).2
  have hassoc : ("geosearch:".data ++ q.data ++ [':', '*'] : List Char) =
      ("geosearch:".data ++ q.data ++ [':']) ++ ['*'] := by
    simp [List.append_assoc]
  have hred : eligibleForClear q (stableKey pfx p) = true ↔
      ("geosearch:".data ++ q.data ++ [':']) <+: stableKeyChars pfx p := by
    simp only [eligibleForClear, stableKey, data_mk]
    rw [hassoc]
    exact glob_literal_star _ (stableKeyChars pfx p) (key_pattern_literal hq)
  refine ⟨⟨digest24 p, rfl, digest24_length p, digest24_mem p⟩, ?_, ?_⟩
  · intro h
    replace h := hred.mp h
    have h' : ("geosearch:".data ++ (q.data ++ [':'])) <+:
        ("geosearch:".data ++ (pfx.data ++ (':' :: digest24 p))) := by
      simpa [stableKeyChars, List.append_assoc] using h
    have h2 : (q.data ++ [':']) <+: (pfx.data ++ ':' :: digest24 p) :=
      (List.prefix_append_right_inj "geosearch:".data).mp h'
    exact string_eq_of_data (append_sep_align hcolq hcolp h2)
  · intro h
    subst h
    rw [hred]
    simp [stableKeyChars, List.append_assoc]

/-- Witness for C10 at the `nearby` / `bbox` prefixes the service uses. -/
theorem stable_key_namespace_witness :
    (∃ d : List Char,
      stableKey "nearby" (poiPayload 1) =
        String.mk ("geosearch:".data ++ "nearby".data ++ [':'] ++ d) ∧
      d.length = 24 ∧ ∀ c ∈ d, c ∈ hexDigits) ∧
    (eligibleForClear "bbox" (stableKey "nearby" (poiPayload 1)) = true ↔
      ("bbox" : String) = "nearby") :=
  stable_key_namespace "nearby" "bbox" (poiPayload 1) (by decide) (by decide)

/-- Claim C10 counterexample: the scan pattern crosses namespaces in two
ways.  The pattern for prefix `a` literally matches every key written
under the distinct prefix `a:b` (the interpolated `:` shifts the
separator), and the pattern for the colon-free prefix `po?` glob-matches
every key written under the distinct prefix `poi` (`?` matches any single
character in a Redis MATCH glob) — so the keys eligible for
`cache_clear_prefix(p)` are not precisely those written with prefix `p`,
and entries under another prefix are not untouched. -/
theorem clear_prefix_cross_namespace :
    (("a:b" : String) ≠ "a" ∧
      eligibleForClear "a" (stableKey "a:b" [("id", JVal.jint 1)]) = true) ∧
    (("poi" : String) ≠ "po?" ∧
      eligibleForClear "po?" (stableKey "poi" [("id", JVal.jint 1)]) = true) := by
  refine ⟨⟨by decide, by decide⟩, ⟨by decide, by decide⟩⟩

/-- A stable sort by the second (distance) component is pairwise ordered
on it. -/
theorem insertionSort_by_snd_sorted {α : Type} (l : List (α × Rat)) :
    (l.insertionSort fun x y => x.2 ≤ y.2).Pairwise fun x y => x.2 ≤ y.2 := by
  haveI : IsTotal (α × Rat) (fun x y => x.2 ≤ y.2) := ⟨fun a b => le_total a.2 b.2⟩
  haveI : IsTrans (α × Rat) (fun x y => x.2 ≤ y.2) :=
    ⟨fun a b c hab hbc => le_trans hab hbc⟩
  exact List.sorted_insertionSort _ l

/-- A stable sort by descending id is pairwise ordered on it. -/
theorem insertionSort_by_id_desc (l : List POIRow) :
    (l.insertionSort fun x y => y.id ≤ x.id).Pairwise fun x y => y.id ≤ x.id := by
  haveI : IsTotal POIRow (fun x y => y.id ≤ x.id) := ⟨fun a b => le_total b.id a.id⟩
  haveI : IsTrans POIRow (fun x y => y.id ≤ x.id) :=
    ⟨fun a b c hab hbc => le_trans hbc hab⟩
  exact List.sorted_insertionSort _ l

/-- Pairwise order survives the `OFFSET` / `LIMIT` page and the row-to-item
mapping. -/
theorem pairwise_page {α β : Type} (R : β → β → Prop) (S : α → α → Prop)
    (l : List α) (f : α → β) (hl : l.Pairwise S)
    (hf : ∀ a b, S a b → R (f a) (f b)) (limit offset : Nat) :
    (((l.drop offset).take limit).map f).Pairwise R := by
  have hsub : List.Sublist ((l.drop offset).take limit) l :=
    List.Sublist.trans (List.take_sublist _ _) (List.drop_sublist _ _)
  have h1 : ((l.drop offset).take limit).Pairwise S := hl.sublist hsub
  exact List.pairwise_map.mpr (h1.imp fun h => hf _ _ h)

/-- Claim C4 (amended): every uncached `nearby_search` page is in
non-decreasing exact-distance order — `NEARBY_SQL` orders by `dist_m ASC`
with no further sort column, so no tie-break is guaranteed — and every
uncached `bbox_search` page is in descending id order. -/
theorem search_result_ordering (distFn : DistFn) (st : Store) (lat lon : Rat)
    (radius_m : Int) (category : Option String) (limit offset : Nat)
    (gh5 : List String) (minLat minLon maxLat maxLon : Rat)
    (blimit boffset : Nat) :
    ((nearbyRows distFn st lat lon radius_m category limit offset gh5).Pairwise
      fun a b => distOf a ≤ distOf b) ∧
    ((bboxRows st minLat minLon maxLat maxLon category blimit boffset).Pairwise
      fun a b => b.id ≤ a.id) := by
  constructor
  · simp only [nearbyRows]
    exact pairwise_page _ (fun x y : POIRow × Rat => x.2 ≤ y.2) _ _
      (insertionSort_by_snd_sorted _)
      (fun a b h => by simpa [toSItem, distOf] using h) _ _
  · simp only [bboxRows]
    exact pairwise_page _ (fun x y : POIRow => y.id ≤ x.id) _ _
      (insertionSort_by_id_desc _)
      (fun a b h => by simpa [toSItem] using h) _ _

/-- Claim C4 counterexample: two rows at equal exact distance whose scan
order lists the larger id first are returned in that order — `ORDER BY
dist_m ASC` imposes no id tie-break — violating "ties broken by entity id
ascending". -/
theorem nearby_ties_not_id_ordered :
    ¬ ((nearbyRows tieDist tieStore 0 0 10 none 50 0 ["x"]).Pairwise
      fun a b => distOf a < distOf b ∨ (distOf a = distOf b ∧ a.id < b.id)) := by
  decide

/-- Claim C3 (amended): with caching disabled, every `cache_get` is a miss
and every `cache_set` is a no-op returning `False`, both without touching
the backend; `cache_delete`, however, never consults the flag — its
behaviour is identical whether caching is enabled or disabled, and it still
operates on the backend. -/
theorem cache_disabled_behavior {α : Type} (decode : String → Option α)
    (encode : α → Option String) (be : Backend) (now : Nat) (pfx : String)
    (payload : Payload) (v : α) (ttl : Nat) :
    cacheGetOp decode false be now pfx payload = none ∧
    cacheSetOp encode false be now pfx payload v ttl = (false, be) ∧
    cacheDeleteOp false be pfx payload = cacheDeleteOp true be pfx payload :=
  ⟨rfl, rfl, rfl⟩

/-- Claim C3 counterexample: with caching disabled, `cache_delete` still
removes the stored entry from the backend and reports the removal, so it is
not a no-op against the backend. -/
theorem cache_delete_ignores_disabled_flag :
    cacheDeleteOp false oneEntryBackend "poi" (poiPayload 7) =
      (true, ⟨[], false⟩) := by
  simp [cacheDeleteOp, oneEntryBackend]

/-- Claim C5 (amended): after every successful create / update / delete
commit the service bulk-invalidates the `nearby` and `bbox` search
prefixes, and update / delete also delete the entity's own `poi` entry;
the `categories` listing prefix is never invalidated by these operations
(only `bulk_create` clears it), whether or not the category set changed. -/
theorem write_invalidation_coverage (prec : Nat) (st : Store) (c : CacheMap)
    (d : POICreateData) (poiId : Nat) (du : POIUpdateData) (old : POIRow)
    (hup : storeFind st poiId = some old) :
    (createPoiM prec st c d).2.2.2 =
      [Effect.storeWrite st.nextId, Effect.clearPrefixAll "nearby",
       Effect.clearPrefixAll "bbox", Effect.publishEvt "poi" "created"] ∧
    (updatePoiM prec st c poiId du).2.2.2 =
      [Effect.storeRead poiId, Effect.storeWrite poiId,
       Effect.cacheDel (stableKey "poi" (poiPayload poiId)),
       Effect.clearPrefixAll "nearby", Effect.clearPrefixAll "bbox",
       Effect.publishEvt "poi" "updated"] ∧
    (deletePoiM st c poiId).2.2.2 =
      [Effect.storeRead poiId, Effect.storeWrite poiId,
       Effect.cacheDel (stableKey "poi" (poiPayload poiId)),
       Effect.clearPrefixAll "nearby", Effect.clearPrefixAll "bbox",
       Effect.publishEvt "poi" "deleted"] ∧
    (∀ e ∈ (createPoiM prec st c d).2.2.2, e ≠ Effect.clearPrefixAll "categories") ∧
    (∀ e ∈ (updatePoiM prec st c poiId du).2.2.2, e ≠ Effect.clearPrefixAll "categories") ∧
    (∀ e ∈ (deletePoiM st c poiId).2.2.2, e ≠ Effect.clearPrefixAll "categories") := by
  refine ⟨?_, ?_, ?_, ?_, ?_, ?_⟩ <;>
    simp [createPoiM, updatePoiM, deletePoiM, clearPrefixSvc, cacheDeleteSvc, hup]

/-- Witness for C5 at a one-row store, discharging the existence check of
the update path. -/
theorem write_invalidation_coverage_witness :
    (updatePoiM 5 oneRowStore emptyCache 1 ⟨some "New Name", none, none, none, none⟩).2.2.2 =
      [Effect.storeRead 1, Effect.storeWrite 1,
       Effect.cacheDel (stableKey "poi" (poiPayload 1)),
       Effect.clearPrefixAll "nearby", Effect.clearPrefixAll "bbox",
       Effect.publishEvt "poi" "updated"] :=
  (write_invalidation_coverage 5 oneRowStore emptyCache newCafeData 1
    ⟨some "New Name", none, none, none, none⟩
    ⟨1, "Test Cafe", some "cafe", 0, 0, "x", "\x7b\x7d"⟩ (by decide)).2.1

/-- Claim C5 counterexample: creating a POI whose category is new to the
store changes the category set, yet the `categories` cache prefix is not
invalidated by the create. -/
theorem create_changes_categories_without_invalidation :
    categoriesFresh emptyStore ≠
        categoriesFresh (createPoiM 5 emptyStore emptyCache newCafeData).2.1 ∧
      Effect.clearPrefixAll "categories" ∉
        (createPoiM 5 emptyStore emptyCache newCafeData).2.2.2 := by
  constructor
  · decide
  · decide

/-- Claim C9: for an id absent from the store, `update_poi` and
`delete_poi` fail with `POINotFoundError` leaving the store and cache
untouched, with the existence-check read as the only effect — no mutation,
no cache invalidation, no event publication; the error is terminal (the
operation performs nothing further). -/
theorem not_found_is_terminal (prec : Nat) (st : Store) (c : CacheMap)
    (poiId : Nat) (d : POIUpdateData) (habs : storeFind st poiId = none) :
    updatePoiM prec st c poiId d =
      (Except.error (SvcError.notFound poiId), st, c, [Effect.storeRead poiId]) ∧
    deletePoiM st c poiId =
      (Except.error (SvcError.notFound poiId), st, c, [Effect.storeRead poiId]) := by
  constructor <;> simp [updatePoiM, deletePoiM, habs]

/-- Witness for C9 at the id 999999 used by the repository's own
not-found tests. -/
theorem not_found_is_terminal_witness :
    updatePoiM 5 emptyStore emptyCache 999999 ⟨some "X", none, none, none, none⟩ =
      (Except.error (SvcError.notFound 999999), emptyStore, emptyCache,
        [Effect.storeRead 999999]) ∧
    deletePoiM emptyStore emptyCache 999999 =
      (Except.error (SvcError.notFound 999999), emptyStore, emptyCache,
        [Effect.storeRead 999999]) :=
  not_found_is_terminal 5 emptyStore emptyCache 999999
    ⟨some "X", none, none, none, none⟩ (by decide)

/-- Claim C8: `bbox_search` with `min_lat > max_lat` or `min_lon > max_lon`
returns the `ValidationError` with the cache untouched and an empty effect
trace — before any cache or store access — and with both axes ordered it
never raises a `ValidationError`. -/
theorem bbox_bounds_validation (enabled : Bool) (st : Store) (c : CacheMap)
    (minLat minLon maxLat maxLon : Rat) (category : Option String)
    (limit offset : Nat) :
    (maxLat < minLat ∨ maxLon < minLon →
      bboxSearchM enabled st c minLat minLon maxLat maxLon category limit offset =
        (Except.error (SvcError.validation
          "Invalid bounding box: min values must be less than max values"), c, [])) ∧
    (minLat ≤ maxLat → minLon ≤ maxLon →
      ∃ r, (bboxSearchM enabled st c minLat minLon maxLat maxLon category limit offset).1 =
        Except.ok r) := by
  constructor
  · intro h
    have hcond : (decide (maxLat < minLat) || decide (maxLon < minLon)) = true := by
      rcases h with h | h <;> simp [h]
    simp [bboxSearchM, hcond]
  · intro h1 h2
    have hcond : (decide (maxLat < minLat) || decide (maxLon < minLon)) = false := by
      simp only [Bool.or_eq_false_iff, decide_eq_false_iff_not, not_lt]
      exact ⟨h1, h2⟩
    simp only [bboxSearchM, hcond, Bool.false_eq_true, if_false]
    rcases hcg : cacheGetSvc enabled c
        (stableKey "bbox" (bboxPayload minLat minLon maxLat maxLon category limit offset)) with
      ⟨ov, eff⟩
    rcases ov with _ | v
    · exact ⟨_, rfl⟩
    · rcases v with ⟨items, cnt⟩ | ⟨row⟩ | ⟨cs⟩
      · exact ⟨_, rfl⟩
      · exact ⟨_, rfl⟩
      · exact ⟨_, rfl⟩

/-- Witness for C8 at the spec's own example (`min_lat=30`, `max_lat=29`)
and at an ordered box. -/
theorem bbox_bounds_validation_witness :
    bboxSearchM true emptyStore emptyCache 30 (-95) 29 (-94) none 100 0 =
      (Except.error (SvcError.validation
        "Invalid bounding box: min values must be less than max values"),
        emptyCache, []) ∧
    ∃ r, (bboxSearchM true emptyStore emptyCache 29 (-95) 30 (-94) none 100 0).1 =
      Except.ok r :=
  ⟨(bbox_bounds_validation true emptyStore emptyCache 30 (-95) 29 (-94) none 100 0).1
      (Or.inl (by norm_num)),
   (bbox_bounds_validation true emptyStore emptyCache 29 (-95) 30 (-94) none 100 0).2
      (by norm_num) (by norm_num)⟩

/-- Claim C6: with caching enabled and a healthy backend, `cache_get`
returns the deserialization of the stored blob when an unexpired entry is
present under the key (the stored value when it deserializes, `None` when
deserialization fails); it returns `None` when no unexpired entry exists
(absence and expiry are indistinguishable) and on backend failure.  Every
failure case is mapped to `None` by the `except` handlers of the source,
and the model is a total function into `Option` — nothing propagates to
the caller. -/
theorem cache_get_miss_semantics {α : Type} (decode : String → Option α)
    (be : Backend) (now : Nat) (pfx : String) (payload : Payload) :
    (∀ e, be.failing = false →
      (be.entries.find? fun x =>
        x.1 == stableKey pfx payload && decide (now < x.2.2)) = some e →
      cacheGetOp decode true be now pfx payload = decode e.2.1) ∧
    (be.failing = false →
      (be.entries.find? fun x =>
        x.1 == stableKey pfx payload && decide (now < x.2.2)) = none →
      cacheGetOp decode true be now pfx payload = none) ∧
    (be.failing = true → cacheGetOp decode true be now pfx payload = none) := by
  refine ⟨?_, ?_, ?_⟩
  · intro e hf hfind
    simp [cacheGetOp, redisGet, hf, hfind]
  · intro hf hfind
    simp [cacheGetOp, redisGet, hf, hfind]
  · intro hf
    simp [cacheGetOp, redisGet, hf]

/-- Witness for C6: a hit on an unexpired entry, a miss past its expiry,
and a miss from a failing backend. -/
theorem cache_get_miss_semantics_witness :
    cacheGetOp (fun s => some s) true oneEntryBackend 5 "poi" (poiPayload 7) =
      some "blob" ∧
    cacheGetOp (fun s => some s) true oneEntryBackend 200 "poi" (poiPayload 7) =
      none ∧
    cacheGetOp (fun s => some s) true (Backend.mk [] true) 0 "poi" (poiPayload 7) =
      none :=
  ⟨(cache_get_miss_semantics (fun s => some s) oneEntryBackend 5 "poi" (poiPayload 7)).1
      (stableKey "poi" (poiPayload 7), "blob", 100) rfl (by simp [oneEntryBackend]),
   (cache_get_miss_semantics (fun s => some s) oneEntryBackend 200 "poi" (poiPayload 7)).2.1
      rfl (by simp [oneEntryBackend]),
   (cache_get_miss_semantics (fun s => some s) (Backend.mk [] true) 0 "poi" (poiPayload 7)).2.2
      rfl⟩

/-- Claim C2: over a fixed store state, with a cache whose entries under
the four read-operation keys agree with that store state — which is what
the service itself writes — every read operation returns the same result
value with caching enabled as with caching disabled: only the `cached`
flag (and latency) may differ. -/
theorem read_cache_transparency (distFn : DistFn) (prec : Nat) (st : Store)
    (c : CacheMap) (lat lon : Rat) (radius_m : Int) (category : Option String)
    (limit offset : Nat) (minLat minLon maxLat maxLon : Rat)
    (bcategory : Option String) (blimit boffset : Nat) (poiId : Nat)
    (hnear : ∀ v,
      c (stableKey "nearby" (nearbyPayload lat lon radius_m category limit offset)) =
        some v →
      v = CacheVal.search
        (nearbyRows distFn st lat lon radius_m category limit offset
          (getNeighborsGeohash lat lon prec))
        (nearbyRows distFn st lat lon radius_m category limit offset
          (getNeighborsGeohash lat lon prec)).length)
    (hbbox : ∀ v,
      c (stableKey "bbox"
          (bboxPayload minLat minLon maxLat maxLon bcategory blimit boffset)) =
        some v →
      v = CacheVal.search
        (bboxRows st minLat minLon maxLat maxLon bcategory blimit boffset)
        (bboxRows st minLat minLon maxLat maxLon bcategory blimit boffset).length)
    (hpoi : ∀ v, c (stableKey "poi" (poiPayload poiId)) = some v →
      ∃ row, storeFind st poiId = some row ∧ v = CacheVal.poiVal row)
    (hcats : ∀ v, c (stableKey "categories" []) = some v →
      v = CacheVal.catsVal (categoriesFresh st)) :
    (nearbySearchM true distFn prec st c lat lon radius_m category limit offset).1.value =
      (nearbySearchM false distFn prec st c lat lon radius_m category limit offset).1.value ∧
    ((bboxSearchM true st c minLat minLon maxLat maxLon bcategory blimit boffset).1.map
        BBoxRes.value) =
      ((bboxSearchM false st c minLat minLon maxLat maxLon bcategory blimit boffset).1.map
        BBoxRes.value) ∧
    (getPoiM true st c poiId).1 = (getPoiM false st c poiId).1 ∧
    (getCategoriesM true st c).1 = (getCategoriesM false st c).1 := by
  refine ⟨?_, ?_, ?_, ?_⟩
  · rcases hc : c (stableKey "nearby" (nearbyPayload lat lon radius_m category limit offset))
      with _ | v
    · simp [nearbySearchM, cacheGetSvc, hc, NearbyRes.value]
    · have hv := hnear v hc
      subst hv
      simp [nearbySearchM, cacheGetSvc, hc, NearbyRes.value]
  · cases hb : (decide (maxLat < minLat) || decide (maxLon < minLon)) with
    | true => simp [bboxSearchM, hb]
    | false =>
      rcases hc : c (stableKey "bbox"
          (bboxPayload minLat minLon maxLat maxLon bcategory blimit boffset)) with _ | v
      · simp [bboxSearchM, hb, cacheGetSvc, hc, BBoxRes.value, Except.map]
      · have hv := hbbox v hc
        subst hv
        simp [bboxSearchM, hb, cacheGetSvc, hc, BBoxRes.value, Except.map]
  · rcases hc : c (stableKey "poi" (poiPayload poiId)) with _ | v
    · rcases hrow : storeFind st poiId with _ | row <;>
        simp [getPoiM, cacheGetSvc, hc, hrow]
    · obtain ⟨row, hrow, hv⟩ := hpoi v hc
      subst hv
      simp [getPoiM, cacheGetSvc, hc, hrow]
  · rcases hc : c (stableKey "categories" []) with _ | v
    · simp [getCategoriesM, cacheGetSvc, hc]
    · have hv := hcats v hc
      subst hv
      simp [getCategoriesM, cacheGetSvc, hc]

/-- Witness for C2 over a one-row store and the empty cache (with which
the coherence hypotheses hold vacuously). -/
theorem read_cache_transparency_witness :
    (nearbySearchM true tieDist 5 oneRowStore emptyCache 0 0 1000 none 50 0).1.value =
      (nearbySearchM false tieDist 5 oneRowStore emptyCache 0 0 1000 none 50 0).1.value ∧
    ((bboxSearchM true oneRowStore emptyCache 29 (-95) 30 (-94) none 100 0).1.map
        BBoxRes.value) =
      ((bboxSearchM false oneRowStore emptyCache 29 (-95) 30 (-94) none 100 0).1.map
        BBoxRes.value) ∧
    (getPoiM true oneRowStore emptyCache 1).1 = (getPoiM false oneRowStore emptyCache 1).1 ∧
    (getCategoriesM true oneRowStore emptyCache).1 =
      (getCategoriesM false oneRowStore emptyCache).1 :=
  read_cache_transparency tieDist 5 oneRowStore emptyCache 0 0 1000 none 50 0
    29 (-95) 30 (-94) none 100 0 1
    (fun _ h => Option.noConfusion h) (fun _ h => Option.noConfusion h)
    (fun _ h => Option.noConfusion h) (fun _ h => Option.noConfusion h)

/-- Indexing into the geohash alphabet stays in the alphabet. -/
theorem geohashAlphabet_getD_mem :
    ∀ i, i < 32 → geohashAlphabet.getD i '0' ∈ geohashAlphabet := by decide

/-- Every character emitted by a five-bit geohash step block is in the
alphabet. -/
theorem ghCharStep_mem (lat lon : Rat) (f : GHFrame) :
    (ghCharStep lat lon f).1 ∈ geohashAlphabet := by
  have hb : ∀ b0 b1 b2 b3 b4 : Bool,
      (cond b0 16 0) + (cond b1 8 0) + (cond b2 4 0) + (cond b3 2 0) + (cond b4 1 0) < 32 := by
    decide
  exact geohashAlphabet_getD_mem _ (hb _ _ _ _ _)

/-- The encoder emits exactly one character per precision level. -/
theorem ghEncodeAux_length (lat lon : Rat) (f : GHFrame) (n : Nat) :
    (ghEncodeAux lat lon f n).length = n := by
  induction n generalizing f with
  | zero => rfl
  | succ k ih => simp [ghEncodeAux, ih]

/-- Every character the encoder emits is in the alphabet. -/
theorem ghEncodeAux_mem (lat lon : Rat) (f : GHFrame) (n : Nat) :
    ∀ ch ∈ ghEncodeAux lat lon f n, ch ∈ geohashAlphabet := by
  induction n generalizing f with
  | zero =>
    intro ch h
    simp [ghEncodeAux] at h
  | succ k ih =>
    intro ch h
    simp only [ghEncodeAux, List.mem_cons] at h
    rcases h with rfl | h
    · exact ghCharStep_mem _ _ _
    · exact ih _ ch h

/-- Every encoded token has the requested length and uses only alphabet
characters. -/
theorem ghEncode_valid (lat lon : Rat) (prec : Nat) :
    (ghEncode lat lon prec).length = prec ∧
      ∀ ch ∈ (ghEncode lat lon prec).data, ch ∈ geohashAlphabet :=
  ⟨by simp [ghEncode, ghEncodeAux_length],
   fun ch h => ghEncodeAux_mem lat lon ghInit prec ch (by simpa [ghEncode, data_mk] using h)⟩

set_option linter.unusedVariables false in
/-- Claim C7: for every valid latitude, longitude and positive precision,
the geohash filter returns exactly 9 tokens — the token covering the point
first, plus its eight neighbors at the same precision, with longitude
wrapped at the antimeridian and latitude clamped at the poles — each a
string of exactly `precision` characters over the geohash alphabet (no
invalid tokens), including at latitude ±89° and longitude ±179°. -/
theorem geohash_filter_nine_valid (lat lon : Rat) (prec : Nat)
    (hlat : -90 ≤ lat ∧ lat ≤ 90) (hlon : -180 ≤ lon ∧ lon ≤ 180)
    (hprec : 1 ≤ prec) :
    (getNeighborsGeohash lat lon prec).length = 9 ∧
    (getNeighborsGeohash lat lon prec).head? = some (ghEncode lat lon prec) ∧
    ∀ t ∈ getNeighborsGeohash lat lon prec, t.length = prec ∧
      ∀ ch ∈ t.data, ch ∈ geohashAlphabet := by
  refine ⟨?_, rfl, ?_⟩
  · simp [getNeighborsGeohash, ghNeighbors, ghDirections]
  · intro t ht
    simp only [getNeighborsGeohash, ghNeighbors, List.mem_cons, List.mem_map] at ht
    rcases ht with rfl | ⟨d, _, rfl⟩
    · exact ghEncode_valid lat lon prec
    · exact ghEncode_valid _ _ prec

/-- Witness for C7 at the latitude-extreme antimeridian-adjacent point
(89, 179) with the default precision 5. -/
theorem geohash_filter_nine_valid_witness :
    (getNeighborsGeohash 89 179 5).length = 9 ∧
    (getNeighborsGeohash 89 179 5).head? = some (ghEncode 89 179 5) ∧
    ∀ t ∈ getNeighborsGeohash 89 179 5, t.length = 5 ∧
      ∀ ch ∈ t.data, ch ∈ geohashAlphabet :=
  geohash_filter_nine_valid 89 179 5 (by norm_num) (by norm_num) (by norm_num)

end GeoSearch
